import Mathlib

/-!
Verification of the policy-chain engine of the LLM safety gateway.

Shallow embedding of the Python sources of the repository:
  * `policies.py`  — the concrete policies (PII_Scrubber, Jailbreak_Detector,
    Semantic_Threat_Detector, Output_Sanitizer) and the policy map;
  * `backend.py`   — chain construction (`_load_policies`), the gateway loop
    (`process_prompt`), the ad-hoc `Keyword_Blocker` and `process_text_custom`.

Conventions of the embedding:
  * Python dicts returned by `evaluate_prompt` become the `PolicyResult`
    structure; a missing `processed_prompt` key is `none`; Python truthiness
    of a string (`if processed:`) is `some s` with `s ≠ ""`.
  * Python exceptions raised by `_load_policies` become `Except LoadError`;
    the two distinct `ValueError` messages are the two `LoadError` constructors.
  * Python regular expressions are embedded by executable matchers operating
    on `List Char`.  Matchers produce the list of candidate match end
    positions in the backtracking preference order of Python (greedy quantifiers
    emit longer matches first), so the head of the list is the span that
    the `re` engine of Python reports; `re.search` is satisfied by any candidate.
    Character classes are modelled over ASCII (`\w` = letters, digits, `_`;
    `\s` = space, tab, newline, carriage return, vertical tab, form feed),
    which matches the behaviour of Python on ASCII text.
  * Timing metadata (`gateway_time_ms`, `llm_time_ms`) attached by the HTTP
    layer is outside the engine and is not modelled.
-/

/-- The verdict of one policy: the dict returned by `evaluate_prompt` in
`policies.py` (keys `status`, `details`, optional `processed_prompt`). -/
structure PolicyResult where
  status : String
  details : String
  processed_prompt : Option String := none
deriving DecidableEq, Repr

/-- One audit-trail record appended by `process_prompt` (backend.py:76-80). -/
structure AuditEntry where
  policy : String
  status : String
  details : String
deriving DecidableEq, Repr

/-- The dict returned by `LLM_Safety_Gateway.process_prompt` (backend.py:83-89
and 97-103). -/
structure GatewayResult where
  status : String
  original_text : String
  processed_text : Option String
  audit_log : List AuditEntry
  final_reason : String
deriving DecidableEq, Repr

/-- A constructed policy instance as the gateway sees it: its `name`
attribute and its `evaluate_prompt` bound method. -/
structure Policy where
  name : String
  eval : String → PolicyResult

/-- Python truthiness of `result.get("processed_prompt")`: `None` and the
empty string are falsy (backend.py:92-93). -/
def pyTruthy : Option String → Bool
  | none => false
  | some s => !(s == "")

/-- The loop body of `LLM_Safety_Gateway.process_prompt` (backend.py:66-103),
with the loop state (`current_text`, `audit_log`, `final_status`) passed
explicitly.  Mirrors the source statement for statement: BLOCK returns
immediately with `processed_text = None`; on MASK/REWRITE the text advances
only when `processed_prompt` is truthy, while `final_status` is assigned
unconditionally (backend.py:91-95). -/
def processPromptAux (policies : List Policy) (text current_text : String)
    (audit_log : List AuditEntry) (final_status : String) : GatewayResult :=
  match policies with
  | [] =>
    { status := final_status
      original_text := text
      processed_text := some current_text
      audit_log := audit_log
      final_reason := "Policy chain executed successfully." }
  | policy :: rest =>
    let result := policy.eval current_text
    let status := result.status
    let details := result.details
    let audit_log' := audit_log ++ [{ policy := policy.name, status := status, details := details }]
    if status = "BLOCK" then
      { status := "BLOCK"
        original_text := text
        processed_text := none
        audit_log := audit_log'
        final_reason := details }
    else
      let next_text :=
        if status = "MASK" ∨ status = "REWRITE" then
          (if pyTruthy result.processed_prompt then result.processed_prompt.getD current_text
           else current_text)
        else current_text
      let next_status :=
        if status = "MASK" ∨ status = "REWRITE" then status else final_status
      processPromptAux rest text next_text audit_log' next_status

/-- Embedding of `LLM_Safety_Gateway.process_prompt` (backend.py:66-103): run the chain on
`text` starting from `current_text = text`, empty audit log and
`final_status = "PASS"`. -/
def process_prompt (chain : List Policy) (text : String) : GatewayResult :=
  processPromptAux chain text text [] "PASS"

/-- Statuses the engine can report. -/
def okStatuses : List String := ["PASS", "MASK", "REWRITE", "BLOCK"]

/-- Python whitespace (ASCII): the characters matched by the regex class
`\s` and stripped by `str.strip()`. -/
def wsChar (c : Char) : Bool :=
  c == ' ' || c == '\t' || c == '\n' || c == '\r' || c == '\x0b' || c == '\x0c'

/-- Python word characters `\w` (ASCII): letters, digits, underscore. -/
def wordChar (c : Char) : Bool := c.isAlpha || c.isDigit || c == '_'

/-- Length of the maximal prefix of a list satisfying `p`: the span a
greedy character-class quantifier consumes. -/
def runLen (p : Char → Bool) : List Char → Nat
  | [] => 0
  | c :: tl => if p c then runLen p tl + 1 else 0

/-- A regex fragment: given the whole text and a start position, the list
of candidate end positions in the preference order of the backtracking
engine of the `re` module (greedy quantifiers emit longer spans first, so
the head of a non-empty candidate list is the span Python reports). -/
def RxM := List Char → Nat → List Nat

/-- A literal, compiled with `re.I`: compares case-insensitively. -/
def mLitCI (w : String) : RxM := fun l i =>
  if ((l.drop i).take w.length).map Char.toLower = w.toList.map Char.toLower then
    [i + w.length]
  else []

/-- Concatenation of fragments, exploring the first fragment in preference
order. -/
def mSeq (m1 m2 : RxM) : RxM := fun l i => (m1 l i).flatMap (fun j => m2 l j)

/-- Alternation `(x|y|…)`, tried left to right. -/
def mAlt (ms : List RxM) : RxM := fun l i => ms.flatMap (fun m => m l i)

/-- Greedy `x?`: the match first, then the empty alternative. -/
def mOpt (m : RxM) : RxM := fun l i => m l i ++ [i]

/-- A single character from a class. -/
def mCls (p : Char → Bool) : RxM := fun l i =>
  match l[i]? with
  | some c => if p c then [i + 1] else []
  | none => []

/-- Greedy `[class]{lo,hi}`: spans from the longest available down to `lo`. -/
def mRep (p : Char → Bool) (lo hi : Nat) : RxM := fun l i =>
  let r := min (runLen p (l.drop i)) hi
  (List.range (r + 1 - lo)).map (fun k => i + (r - k))

/-- Greedy `[class]*`. -/
def mStarCls (p : Char → Bool) : RxM := fun l i =>
  let r := runLen p (l.drop i)
  (List.range (r + 1)).map (fun k => i + (r - k))

/-- Greedy `[class]+`. -/
def mPlusCls (p : Char → Bool) : RxM := fun l i =>
  let r := runLen p (l.drop i)
  (List.range r).map (fun k => i + (r - k))

/-- Embedding of `\b`: true when exactly one of the neighbouring positions holds a word
character (start and end of text count as non-word). -/
def wordBoundary (l : List Char) (i : Nat) : Bool :=
  let cur := match l[i]? with | some c => wordChar c | none => false
  let prev := if i = 0 then false
    else match l[i-1]? with | some c => wordChar c | none => false
  prev != cur

/-- The zero-width `\b` fragment. -/
def mBd : RxM := fun l i => if wordBoundary l i then [i] else []

/-- Greedy `.*` without DOTALL: any characters except newline. -/
def mDotStar : RxM := mStarCls (fun c => !(c == '\n'))

/-- Embedding of `re.search(pattern, s)` as a Boolean: some start position (including
the end-of-text position, reachable by zero-width patterns) admits a
match. -/
def mSearch (m : RxM) (s : String) : Bool :=
  let l := s.toList
  (List.range (l.length + 1)).any (fun i => !((m l i).isEmpty))

/-- Embedding of `(make|build|create|manufacture)` with `re.I`
(policies.py:131, second search). -/
def creationVerb : RxM :=
  mAlt [mLitCI "make", mLitCI "build", mLitCI "create", mLitCI "manufacture"]

/-- Embedding of `\bbomb\b` with `re.I` (policies.py:131, first search). -/
def bombWord : RxM := mSeq mBd (mSeq (mLitCI "bomb") mBd)

/-- The `(a|the)?` fragment of the bomb patterns. -/
def optArticle : RxM := mOpt (mAlt [mLitCI "a", mLitCI "the"])

/-- The common tail `\s+(a|the)?\s*bomb\b` of the first two block patterns. -/
def verbBombTail : RxM :=
  mSeq (mPlusCls wsChar) (mSeq optArticle
    (mSeq (mStarCls wsChar) (mSeq (mLitCI "bomb") mBd)))

/-- Embedding of `self.block_patterns` (policies.py:104-116): each regex source string
paired with its matcher, in source order. -/
def block_patterns : List (String × RxM) :=
  [ ("\\b(make|build|create|manufacture)\\s+(a|the)?\\s*bomb\\b",
      mSeq mBd (mSeq creationVerb verbBombTail)),
    ("\\bhow to (make|build|create|manufacture)\\s+(a|the)?\\s*bomb\\b",
      mSeq mBd (mSeq (mLitCI "how to ") (mSeq creationVerb verbBombTail))),
    ("\\bbomb\\s*recipe\\b",
      mSeq mBd (mSeq (mLitCI "bomb")
        (mSeq (mStarCls wsChar) (mSeq (mLitCI "recipe") mBd)))),
    ("\\bexplosive\\s+device\\b",
      mSeq mBd (mSeq (mLitCI "explosive")
        (mSeq (mPlusCls wsChar) (mSeq (mLitCI "device") mBd)))),
    ("\\bpipe\\s*bomb\\b",
      mSeq mBd (mSeq (mLitCI "pipe")
        (mSeq (mStarCls wsChar) (mSeq (mLitCI "bomb") mBd)))),
    ("\\bied\\b", mSeq mBd (mSeq (mLitCI "ied") mBd)),
    ("\\bhow to hack a bank\\b",
      mSeq mBd (mSeq (mLitCI "how to hack a bank") mBd)),
    ("\\bhow to (kill|poison)\\b",
      mSeq mBd (mSeq (mLitCI "how to ")
        (mSeq (mAlt [mLitCI "kill", mLitCI "poison"]) mBd))) ]

/-- Embedding of `self.rewrite_patterns` (policies.py:119-121). -/
def rewrite_patterns : List (String × RxM) :=
  [ ("\\b(hack|bypass)\\b.*\\b(firewall|router|wifi|system)\\b",
      mSeq mBd (mSeq (mAlt [mLitCI "hack", mLitCI "bypass"])
        (mSeq mBd (mSeq mDotStar (mSeq mBd
          (mSeq (mAlt [mLitCI "firewall", mLitCI "router", mLitCI "wifi",
                       mLitCI "system"]) mBd)))))) ]

/-- Embedding of `self.rewrite_template` (policies.py:123-126): `.format(prompt=text)`
appends the text to this fixed head. -/
def rewrite_template_head : String :=
  "This query was rewritten to focus only on defensive cybersecurity. Explain best practices without attack steps: "

/-- The email local-part class `[a-zA-Z0-9._%+-]`. -/
def localChar (c : Char) : Bool :=
  c.isAlpha || c.isDigit || c == '.' || c == '_' || c == '%' || c == '+' || c == '-'

/-- The email domain class `[a-zA-Z0-9.-]`. -/
def domainChar (c : Char) : Bool := c.isAlpha || c.isDigit || c == '.' || c == '-'

/-- Is the character at index `j` an ASCII letter? -/
def isAlphaAt (l : List Char) (j : Nat) : Bool :=
  match l[j]? with | some c => c.isAlpha | none => false

/-- Could `\.[a-zA-Z]{2,}` match after a domain prefix of length `j`? -/
def dotOk (rest : List Char) (j : Nat) : Bool :=
  (rest[j]? == some '.') && isAlphaAt rest (j+1) && isAlphaAt rest (j+2)

/-- The domain-part length the backtracking engine settles on: the largest
`j ≥ 1` below the greedy run `d` such that a dot and at least two letters
follow (the engine shortens the greedy `[a-zA-Z0-9.-]+` span from longest
to shortest until the rest of the pattern fits). -/
def findDot (rest : List Char) (d : Nat) : Option Nat :=
  (List.range d).reverse.find? (fun j => decide (1 ≤ j) && dotOk rest j)

/-- Match of `[a-zA-Z0-9._%+-]+@[a-zA-Z0-9.-]+\.[a-zA-Z]{2,}` anchored at
the front of `l`, returning the length of the match the `re` engine
reports. Derivation from backtracking semantics: `@` is not in the
local-part class, so the greedy `[a-zA-Z0-9._%+-]+` can only succeed with
the maximal run (shorter runs are followed by another class character, not
`@`); after `@`, the longest domain prefix admitting `\.` plus two letters
wins (`findDot`), and the final `[a-zA-Z]{2,}` greedily takes the maximal
letter run. -/
def matchEmail (l : List Char) : Option Nat :=
  let a := runLen localChar l
  if a = 0 then none
  else
    match l.drop a with
    | [] => none
    | c :: rest =>
      if c = '@' then
        let d := runLen domainChar rest
        match findDot rest d with
        | some j => some (a + 1 + j + 1 + runLen Char.isAlpha (rest.drop (j+1)))
        | none => none
      else none

/-- Embedding of `re.sub` for the email pattern: scan left to right, attempt a match at
each position, on success emit the mask token and resume after the match.
Matches are never empty (the local part is non-empty), so each step
consumes at least one character; the fuel argument makes the recursion
structural and `subScan` supplies enough of it. When fuel runs out (never,
with enough supplied) the remaining text is returned unchanged. -/
def subScanFuel (tok : List Char) : Nat → List Char → List Char
  | 0, l => l
  | fuel+1, l =>
    match matchEmail l with
    | some n => tok ++ subScanFuel tok fuel (l.drop n)
    | none =>
      match l with
      | [] => []
      | c :: tl => c :: subScanFuel tok fuel tl

/-- Embedding of `re.sub` of the email regex over a character list. -/
def subScan (tok l : List Char) : List Char := subScanFuel tok l.length l

/-- Embedding of `self.email_regex.sub(self.mask_token, text)` (policies.py:57 and
policies.py:187) in the literal-replacement case: CPython `pattern_subx`
splices a replacement containing no backslash into the output verbatim,
which is the case every settled claim exercises. A replacement containing
a backslash is instead compiled as a template before any matching and can
raise `re.error` on every call; that error path is modelled by
`replIsLiteral` and `replTemplateValid0` and decides C7. -/
def emailSub (mask_token text : String) : String :=
  (subScan mask_token.toList text.toList).asString

/-- The configuration record an entry passes to a policy constructor: the
keys the constructors read. The regex-source overrides `phone_pattern` and
`email_pattern` of Output_Sanitizer are outside this record — interpreting
an arbitrary regex source string is outside the embedding — so the chains
the construction and evaluation theorems quantify over are exactly the
configurations without pattern overrides; those constructors use their
default patterns. -/
structure PolicyConfig where
  mask_token : Option String := none
  keywords : Option (List String) := none
  disallowed_domains : Option (List String) := none
deriving DecidableEq, Repr

/-- Embedding of `PII_Scrubber` state after `__init__` (policies.py:49-54). -/
structure PII_Scrubber where
  mask_token : String
deriving DecidableEq, Repr

/-- Embedding of `PII_Scrubber.__init__`: `self.config.get("mask_token", "[EMAIL_MASKED]")`. -/
def PII_Scrubber.from_config (cfg : PolicyConfig) : PII_Scrubber :=
  ⟨cfg.mask_token.getD "[EMAIL_MASKED]"⟩

/-- Embedding of `PII_Scrubber.evaluate_prompt` (policies.py:56-64). -/
def PII_Scrubber.evaluate_prompt (self : PII_Scrubber) (text : String) : PolicyResult :=
  let masked := emailSub self.mask_token text
  if masked ≠ text then
    { status := "MASK", details := "PII (email) masked.", processed_prompt := some masked }
  else
    { status := "PASS", details := "No PII found." }

/-- Python `str.lower()`: per-character ASCII lowering (the characterwise
definition of `String.map Char.toLower`, stated over the character list so
that it evaluates by kernel reduction). -/
def strLower (s : String) : String := (s.toList.map Char.toLower).asString

/-- Default jailbreak trigger phrases (policies.py:72-78). -/
def jailbreak_default_keywords : List String :=
  ["ignore previous rules", "dan mode", "jailbreak", "bypass safety",
   "act as if you are not an ai"]

/-- Embedding of `Jailbreak_Detector` state after `__init__` (policies.py:70-79). -/
structure Jailbreak_Detector where
  keywords : List String
deriving DecidableEq, Repr

/-- Embedding of `Jailbreak_Detector.__init__`: lower-cases the configured (or default)
keyword list. -/
def Jailbreak_Detector.from_config (cfg : PolicyConfig) : Jailbreak_Detector :=
  ⟨(cfg.keywords.getD jailbreak_default_keywords).map strLower⟩

/-- Python substring containment `w in l`. -/
def containsSub (w l : List Char) : Bool :=
  (List.range (l.length + 1)).any (fun i => decide ((l.drop i).take w.length = w))

/-- Embedding of `Jailbreak_Detector.evaluate_prompt` (policies.py:81-86). -/
def Jailbreak_Detector.evaluate_prompt (self : Jailbreak_Detector) (text : String) :
    PolicyResult :=
  let low := strLower text
  match self.keywords.find? (fun kw => containsSub kw.toList low.toList) with
  | some kw => { status := "BLOCK", details := "Jailbreak detected: \x27" ++ kw ++ "\x27" }
  | none => { status := "PASS", details := "No jailbreak detected." }

/-- Embedding of `Semantic_Threat_Detector` holds no evaluation-relevant state beyond
its fixed pattern lists (its `__init__` ignores the configuration record
for behaviour). -/
structure Semantic_Threat_Detector where
deriving DecidableEq, Repr

/-- Embedding of `Semantic_Threat_Detector.__init__` (policies.py:100-126). -/
def Semantic_Threat_Detector.from_config (_cfg : PolicyConfig) : Semantic_Threat_Detector := ⟨⟩

/-- Embedding of `Semantic_Threat_Detector.evaluate_prompt` (policies.py:128-155): the
compound bomb check first, then the block patterns in order, then the
rewrite patterns, else PASS. -/
def Semantic_Threat_Detector.evaluate_prompt (_self : Semantic_Threat_Detector)
    (text : String) : PolicyResult :=
  if mSearch bombWord text && mSearch creationVerb text then
    { status := "BLOCK", details := "Dangerous bomb-making intent detected." }
  else
    match block_patterns.find? (fun pm => mSearch pm.snd text) with
    | some pm =>
      { status := "BLOCK",
        details := "Semantic threat detected (pattern: \x27" ++ pm.fst ++ "\x27)" }
    | none =>
      match rewrite_patterns.find? (fun pm => mSearch pm.snd text) with
      | some _ =>
        { status := "REWRITE",
          details := "Potentially unsafe → rewritten to defensive intent.",
          processed_prompt := some (rewrite_template_head ++ text) }
      | none => { status := "PASS", details := "No semantic threat detected." }

/-- ASCII digits `\d`. -/
def digitChar (c : Char) : Bool := c.isDigit

/-- The separator class `[-.\s]` of the phone pattern. -/
def sepChar (c : Char) : Bool := c == '-' || c == '.' || wsChar c

/-- The default `phone_pattern`
`(?:(?:\+?\d{1,3}[-.\s]?)|\(0?\d{3}\)[-.\s]?)?\d{3}[-.\s]?\d{4}(?:[-.\s]?\d{3})?`
(policies.py:164-167). -/
def phonePattern : RxM :=
  mSeq (mOpt (mAlt
    [ mSeq (mOpt (mCls (fun c => c == '+')))
        (mSeq (mRep digitChar 1 3) (mOpt (mCls sepChar))),
      mSeq (mCls (fun c => c == '('))
        (mSeq (mOpt (mCls (fun c => c == '0')))
          (mSeq (mRep digitChar 3 3)
            (mSeq (mCls (fun c => c == ')')) (mOpt (mCls sepChar))))) ]))
  (mSeq (mRep digitChar 3 3) (mSeq (mOpt (mCls sepChar))
    (mSeq (mRep digitChar 4 4)
      (mOpt (mSeq (mOpt (mCls sepChar)) (mRep digitChar 3 3))))))

/-- Embedding of `https?://<re.escape(dom)>[^\s]*` compiled with `re.I`
(policies.py:190-195). -/
def urlPattern (dom : String) : RxM :=
  mSeq (mLitCI "http") (mSeq (mOpt (mLitCI "s")) (mSeq (mLitCI "://")
    (mSeq (mLitCI dom) (mStarCls (fun c => !(wsChar c))))))

/-- Generic `re.sub`: at each position take the preferred match (head of
the candidate list) and replace it, resuming after the match; otherwise
copy the character. Our patterns never match the empty string; a
zero-width candidate is treated as no match. Fuel-driven (one unit per
step, `l.length + 1` suffices). -/
def pySubFuel (m : RxM) (repl l : List Char) : Nat → Nat → List Char
  | 0, _ => []
  | fuel+1, i =>
    if h : i < l.length then
      match (m l i).head? with
      | some e =>
        if i < e then repl ++ pySubFuel m repl l fuel e
        else l.get ⟨i, h⟩ :: pySubFuel m repl l fuel (i + 1)
      | none => l.get ⟨i, h⟩ :: pySubFuel m repl l fuel (i + 1)
    else []

/-- Embedding of `re.sub(pattern, repl, text)` over strings, again in the
literal-replacement case (`repl` without a backslash, spliced verbatim);
see `emailSub` for the template-compilation error path of a backslash
replacement, modelled by `replIsLiteral` and `replTemplateValid0`. -/
def pySub (m : RxM) (repl text : String) : String :=
  (pySubFuel m repl.toList text.toList (text.toList.length + 1) 0).asString

/-- Default disallowed link domains (policies.py:177-180). -/
def sanitizer_default_domains : List String := ["pastebin.com", "anonfiles.com"]

/-- Embedding of `Output_Sanitizer` state after `__init__` (policies.py:161-180). -/
structure Output_Sanitizer where
  mask_token : String
  disallowed : List String
deriving DecidableEq, Repr

/-- Embedding of `Output_Sanitizer.__init__` with the default phone/email patterns (see
`PolicyConfig`). -/
def Output_Sanitizer.from_config (cfg : PolicyConfig) : Output_Sanitizer :=
  { mask_token := cfg.mask_token.getD "[REDACTED]"
    disallowed := cfg.disallowed_domains.getD sanitizer_default_domains }

/-- Embedding of `Output_Sanitizer.evaluate_prompt` (policies.py:182-204): substitute
phone numbers, then emails, then one URL pattern per disallowed domain,
against the same working text; MASK if anything changed. -/
def Output_Sanitizer.evaluate_prompt (self : Output_Sanitizer) (text : String) :
    PolicyResult :=
  let p1 := pySub phonePattern self.mask_token text
  let p2 := emailSub self.mask_token p1
  let p3 := self.disallowed.foldl
    (fun acc dom => pySub (urlPattern dom) self.mask_token acc) p2
  if p3 ≠ text then
    { status := "MASK", details := "Output sanitized (PII or unsafe links).",
      processed_prompt := some p3 }
  else
    { status := "PASS", details := "Output clean." }

/-- View a constructed `PII_Scrubber` as a chain policy (its `name`
attribute and bound `evaluate_prompt`). -/
def PII_Scrubber.toPolicy (self : PII_Scrubber) : Policy :=
  ⟨"PII_Scrubber", self.evaluate_prompt⟩

/-- View a constructed `Jailbreak_Detector` as a chain policy. -/
def Jailbreak_Detector.toPolicy (self : Jailbreak_Detector) : Policy :=
  ⟨"Jailbreak_Detector", self.evaluate_prompt⟩

/-- View a constructed `Semantic_Threat_Detector` as a chain policy. -/
def Semantic_Threat_Detector.toPolicy (self : Semantic_Threat_Detector) : Policy :=
  ⟨"Semantic_Threat_Detector", self.evaluate_prompt⟩

/-- View a constructed `Output_Sanitizer` as a chain policy. -/
def Output_Sanitizer.toPolicy (self : Output_Sanitizer) : Policy :=
  ⟨"Output_Sanitizer", self.evaluate_prompt⟩

/-- Embedding of `POLICY_MAP` (policies.py:209-214): type tag to constructor. -/
def POLICY_MAP : List (String × (PolicyConfig → Policy)) :=
  [ ("PII_Scrubber", fun cfg => (PII_Scrubber.from_config cfg).toPolicy),
    ("Jailbreak_Detector", fun cfg => (Jailbreak_Detector.from_config cfg).toPolicy),
    ("Semantic_Threat_Detector", fun cfg => (Semantic_Threat_Detector.from_config cfg).toPolicy),
    ("Output_Sanitizer", fun cfg => (Output_Sanitizer.from_config cfg).toPolicy) ]

/-- Embedding of `POLICY_MAP.get(policy_type)` where `policy_type = item.get("type")`:
a missing key and an unknown tag both yield absent. -/
def policyMapGet (t : Option String) : Option (PolicyConfig → Policy) :=
  match t with
  | none => none
  | some s =>
    match POLICY_MAP.find? (fun kv => kv.fst == s) with
    | some kv => some kv.snd
    | none => none

/-- One entry of a named policy set: `{type: tag, config: record}`
(backend.py:49-50; both keys are read with `.get`, so either may be
missing). -/
structure ConfigItem where
  type : Option String := none
  config : PolicyConfig := {}

/-- The two `ValueError` kinds `_load_policies` raises, distinguished by
their message text (backend.py:45 and backend.py:62). -/
inductive LoadError where
  | configurationNotFound
  | emptyChain
deriving DecidableEq, Repr

/-- The for-loop of `_load_policies` (backend.py:47-58): resolve each entry
through `POLICY_MAP`, skip (with only a warning) the entries that do not
resolve, and keep the constructed policies in configuration order. -/
def buildChain : List ConfigItem → List Policy
  | [] => []
  | item :: rest =>
    match policyMapGet item.type with
    | none => buildChain rest
    | some ctor => ctor item.config :: buildChain rest

/-- Embedding of `policy_config_data.get(self.policy_name)` (backend.py:43). -/
def lookupTable (data : List (String × List ConfigItem)) (name : String) :
    Option (List ConfigItem) :=
  match data.find? (fun kv => kv.fst == name) with
  | some kv => some kv.snd
  | none => none

/-- Embedding of `LLM_Safety_Gateway._load_policies` (backend.py:42-64). The Python
guard `if not config_list:` is true both when the name is absent and when
the named list is present but empty, so both cases raise the "not found"
ValueError; the "no valid policies" ValueError is raised when entries
existed but none resolved. -/
def load_policies (data : List (String × List ConfigItem)) (name : String) :
    Except LoadError (List Policy) :=
  match lookupTable data name with
  | none => .error .configurationNotFound
  | some config_list =>
    if config_list.isEmpty then .error .configurationNotFound
    else
      let policy_chain := buildChain config_list
      if policy_chain.isEmpty then .error .emptyChain
      else .ok policy_chain

/-- Python `str.strip()` over ASCII whitespace. -/
def pyStrip (s : String) : String :=
  (((s.toList.dropWhile wsChar).reverse.dropWhile wsChar).reverse).asString

/-- Embedding of `Keyword_Blocker` state after `__init__` (backend.py:180-184). -/
structure Keyword_Blocker where
  keywords : List String
deriving DecidableEq, Repr

/-- Embedding of `Keyword_Blocker.__init__`:
`[x.strip().lower() for x in keywords if x.strip()]`. -/
def Keyword_Blocker.from_keywords (keywords : List String) : Keyword_Blocker :=
  ⟨(keywords.filter (fun x => !(pyStrip x == ""))).map (fun x => strLower (pyStrip x))⟩

/-- Embedding of `Keyword_Blocker.evaluate_prompt` (backend.py:186-194). -/
def Keyword_Blocker.evaluate_prompt (self : Keyword_Blocker) (text : String) :
    PolicyResult :=
  let t := strLower text
  match self.keywords.find? (fun kw => containsSub kw.toList t.toList) with
  | some kw =>
    { status := "BLOCK", details := "Matched custom keyword: \x27" ++ kw ++ "\x27" }
  | none => { status := "PASS", details := "No keyword match." }

/-- Embedding of `process_text_custom` (backend.py:197-220) without the timing metadata
attached by the HTTP layer: one ad-hoc blocker, one audit entry,
`processed_text` absent exactly when blocked. -/
def process_text_custom (text : String) (keywords : List String) : GatewayResult :=
  let blocker := Keyword_Blocker.from_keywords keywords
  let result := blocker.evaluate_prompt text
  let blocked := result.status == "BLOCK"
  { status := result.status
    original_text := text
    processed_text := if blocked then none else some text
    audit_log := [{ policy := "Keyword_Blocker", status := result.status,
                    details := result.details }]
    final_reason := result.details }

/-- The status of the last MASK-or-REWRITE audit entry, or the supplied
default when there is none (the observation C5 is stated with). -/
def finalFromAuditFrom (fs : String) (entries : List AuditEntry) : String :=
  match entries.reverse.find? (fun e => e.status == "MASK" || e.status == "REWRITE") with
  | some e => e.status
  | none => fs

/-- The status of the last MASK-or-REWRITE audit entry, or PASS. -/
def finalFromAudit (entries : List AuditEntry) : String :=
  finalFromAuditFrom "PASS" entries

/-- The error kind (if any) of a construction outcome,
for decidable statements about `load_policies`. -/
def loadErrorKind : Except LoadError (List Policy) → Option LoadError
  | .error e => some e
  | .ok _ => none

/-- A PII scrubber configured with an empty mask token (a configuration on
which a MASK result carries an empty `processed_prompt`). -/
def piiEmptyMask : Policy :=
  (PII_Scrubber.from_config { mask_token := some "" }).toPolicy

/-- A policy set mixing an unknown type tag with a known one. -/
def mixedItems : List ConfigItem :=
  [{ type := some "Nope" }, { type := some "PII_Scrubber" }]

/-- A one-set table holding `mixedItems`. -/
def mixedTable : List (String × List ConfigItem) := [("main", mixedItems)]

/-- A policy set holding a single default jailbreak detector. -/
def jbItems : List ConfigItem := [{ type := some "Jailbreak_Detector" }]

/-- A one-set table holding `jbItems`. -/
def jbTable : List (String × List ConfigItem) := [("main", jbItems)]

/-- The default mask token as a character list: it opens with `[`, closes
with `]`, and everything between is in the local-part class. -/
def maskChars : List Char := "[EMAIL_MASKED]".toList

/-- No suffix of `l` starts an email match (so the email substitution will
leave `l` unchanged). -/
def NoMatch (l : List Char) : Prop := ∀ i, matchEmail (l.drop i) = none

/-- Is the replacement string free of backslashes? CPython `pattern_subx`
splices such a replacement into the output literally, with no template
compilation; only a replacement containing a backslash is parsed as a
template — and that parsing happens before any matching, on every `sub`
call, also on input with no match at all. -/
def replIsLiteral (repl : String) : Bool := !(repl.toList.contains '\\')

/-- Octal digits, for replacement-template escapes. -/
def octDigitChar (c : Char) : Bool := '0' ≤ c && c ≤ '7'

/-- The escape letters CPython accepts in a replacement template. -/
def replEscapeChar (c : Char) : Bool :=
  c == 'a' || c == 'b' || c == 'f' || c == 'n' || c == 'r' || c == 't' || c == 'v'

/-- Fuelled core of `replTemplateValid0`; every step consumes at least one
character, so `length + 1` fuel always suffices (the fuel only makes the
recursion structural, through the group-name scan). -/
def replTemplateValidFuel : Nat → List Char → Bool
  | 0, _ => true
  | _ + 1, [] => true
  | fuel + 1, c :: rest =>
    if c = '\\' then
      match rest with
      | [] => false
      | e :: rest2 =>
        if e = 'g' then
          match rest2 with
          | '<' :: rest3 =>
            let name := rest3.takeWhile (fun d => !(d == '>'))
            match rest3.drop name.length with
            | '>' :: rest4 =>
              if name.isEmpty then false
              else if name.all (fun d => d == '0') then replTemplateValidFuel fuel rest4
              else false
            | _ => false
          | _ => false
        else if e = '0' then
          match rest2 with
          | d2 :: rest3 =>
            if octDigitChar d2 then
              match rest3 with
              | d3 :: rest4 =>
                if octDigitChar d3 then replTemplateValidFuel fuel rest4
                else replTemplateValidFuel fuel rest3
              | [] => true
            else replTemplateValidFuel fuel rest2
          | [] => true
        else if e.isDigit then
          match rest2 with
          | d2 :: rest3 =>
            if d2.isDigit then
              match rest3 with
              | d3 :: rest4 =>
                if octDigitChar e && octDigitChar d2 && octDigitChar d3 then
                  (if e ≤ '3' then replTemplateValidFuel fuel rest4 else false)
                else false
              | [] => false
            else false
          | [] => false
        else if e.isAlpha then
          (if replEscapeChar e then replTemplateValidFuel fuel rest2 else false)
        else replTemplateValidFuel fuel rest2
    else replTemplateValidFuel fuel rest

/-- Does a replacement template parse without error against a pattern with
zero capturing groups and no named groups? This is true of every pattern
this repository substitutes with: the email, phone and URL patterns
contain only non-capturing or escaped parentheses. Modelled on CPython
`re._parser.parse_template`: a trailing backslash, a backslash before an
unknown ASCII letter, and any group reference other than group 0 are
errors here; `\g` must be followed by an angle-bracketed name, of which
only the plain digit spellings of 0 resolve (the exotic signed or
underscored spellings that the Python `int()` call would also accept are
not modelled); a backslash before `0` starts an octal escape of up to
three digits; a backslash before `1`-`9` starts a group reference —
always invalid here — unless three octal digits follow, in which case the
value must not exceed octal 377; a backslash before any other character
keeps both characters. -/
def replTemplateValid0 (repl : List Char) : Bool :=
  replTemplateValidFuel (repl.length + 1) repl

/-- A policy set whose single entry configures the PII scrubber with the
replacement token backslash-one: accepted by construction, crashing at
evaluation in the program. -/
def crashItems : List ConfigItem :=
  [{ type := some "PII_Scrubber", config := { mask_token := some "\\1" } }]

/-- A one-set table holding `crashItems`. -/
def crashTable : List (String × List ConfigItem) := [("main", crashItems)]

/-- The audit accumulator is pure accumulation: running with prior entries
`A` prepends `A` to the log produced from an empty accumulator and changes
nothing else. -/
theorem processPromptAux_acc (policies : List Policy) (text ct : String)
    (A : List AuditEntry) (fs : String) :
    processPromptAux policies text ct A fs =
      { processPromptAux policies text ct [] fs with
        audit_log := A ++ (processPromptAux policies text ct [] fs).audit_log } := by
  induction policies generalizing ct A fs with
  | nil => simp [processPromptAux]
  | cons p rest ih =>
    simp only [processPromptAux]
    by_cases hb : (p.eval ct).status = "BLOCK"
    · simp [hb]
    · simp only [hb, if_false]
      have h1 := ih
        (if (p.eval ct).status = "MASK" ∨ (p.eval ct).status = "REWRITE" then
          (if pyTruthy (p.eval ct).processed_prompt then (p.eval ct).processed_prompt.getD ct
           else ct)
         else ct)
        (A ++ [{ policy := p.name, status := (p.eval ct).status, details := (p.eval ct).details }])
        (if (p.eval ct).status = "MASK" ∨ (p.eval ct).status = "REWRITE" then (p.eval ct).status
         else fs)
      have h2 := ih
        (if (p.eval ct).status = "MASK" ∨ (p.eval ct).status = "REWRITE" then
          (if pyTruthy (p.eval ct).processed_prompt then (p.eval ct).processed_prompt.getD ct
           else ct)
         else ct)
        ([] ++ [{ policy := p.name, status := (p.eval ct).status, details := (p.eval ct).details }])
        (if (p.eval ct).status = "MASK" ∨ (p.eval ct).status = "REWRITE" then (p.eval ct).status
         else fs)
      rw [h1, h2]
      simp

/-- On the completed (non-BLOCK) path the reported status is either the
initial `final_status` or a MASK/REWRITE status recorded along the way. -/
theorem processPromptAux_status_of_not_block (policies : List Policy)
    (text ct : String) (fs : String)
    (h : (processPromptAux policies text ct [] fs).status ≠ "BLOCK") :
    (processPromptAux policies text ct [] fs).status = fs ∨
      (processPromptAux policies text ct [] fs).status = "MASK" ∨
      (processPromptAux policies text ct [] fs).status = "REWRITE" := by
  induction policies generalizing ct fs with
  | nil => left; simp [processPromptAux]
  | cons p rest ih =>
    simp only [processPromptAux] at h ⊢
    by_cases hb : (p.eval ct).status = "BLOCK"
    · simp [hb] at h
    · simp only [hb, if_false] at h ⊢
      rw [processPromptAux_acc] at h ⊢
      simp only [] at h ⊢
      by_cases hmr : (p.eval ct).status = "MASK" ∨ (p.eval ct).status = "REWRITE"
      · simp only [hmr, if_true] at h ⊢
        rcases ih _ _ h with h1 | h2
        · right; rw [h1] at *; exact hmr
        · right; exact h2
      · simp only [hmr, if_false] at h ⊢
        exact ih _ _ h

/-- Invariant behind C2, generalized over the running `final_status`: as long
as the incoming `final_status` is not BLOCK, the returned `processed_text`
is absent exactly on the BLOCK path. -/
theorem processPromptAux_none_iff_block (policies : List Policy)
    (text ct : String) (fs : String) (hfs : fs ≠ "BLOCK") :
    (processPromptAux policies text ct [] fs).processed_text = none ↔
      (processPromptAux policies text ct [] fs).status = "BLOCK" := by
  induction policies generalizing ct fs with
  | nil => simp [processPromptAux, hfs]
  | cons p rest ih =>
    simp only [processPromptAux]
    by_cases hb : (p.eval ct).status = "BLOCK"
    · simp [hb]
    · simp only [hb, if_false]
      rw [processPromptAux_acc]
      simp only []
      by_cases hmr : (p.eval ct).status = "MASK" ∨ (p.eval ct).status = "REWRITE"
      · simp only [hmr, if_true]
        exact ih _ _ hb
      · simp only [hmr, if_false]
        exact ih _ _ hfs

/-- C2: for every chain and input text, the field `processed_text` of the GatewayResult
is `None` iff its `status` is BLOCK; on any non-BLOCK outcome the processed
text is present. -/
theorem c2_processed_text_none_iff_block (chain : List Policy) (text : String) :
    (process_prompt chain text).processed_text = none ↔
      (process_prompt chain text).status = "BLOCK" := by
  exact processPromptAux_none_iff_block chain text text "PASS" (by decide)

/-- Invariant behind C3, generalized over the loop state. -/
theorem processPromptAux_audit_shape (policies : List Policy)
    (text ct : String) (fs : String) (hfs : fs ≠ "BLOCK") :
    ((processPromptAux policies text ct [] fs).audit_log.map AuditEntry.policy =
        (policies.map Policy.name).take
          (processPromptAux policies text ct [] fs).audit_log.length) ∧
    (if (processPromptAux policies text ct [] fs).status = "BLOCK" then
        ((processPromptAux policies text ct [] fs).audit_log.dropLast.all
            (fun e => !(e.status == "BLOCK"))) ∧
          ((processPromptAux policies text ct [] fs).audit_log.getLast?.map
              AuditEntry.status = some "BLOCK")
      else
        ((processPromptAux policies text ct [] fs).audit_log.length = policies.length ∧
          (processPromptAux policies text ct [] fs).audit_log.all
            (fun e => !(e.status == "BLOCK")))) := by
  induction policies generalizing ct fs with
  | nil => simp [processPromptAux, hfs]
  | cons p rest ih =>
    simp only [processPromptAux]
    by_cases hb : (p.eval ct).status = "BLOCK"
    · simp [hb]
    · simp only [hb, if_false]
      rw [processPromptAux_acc]
      simp only [List.nil_append]
      have hfs' : (if (p.eval ct).status = "MASK" ∨ (p.eval ct).status = "REWRITE" then
          (p.eval ct).status else fs) ≠ "BLOCK" := by
        split
        · exact hb
        · exact hfs
      obtain ⟨ih1, ih2⟩ := ih
        (if (p.eval ct).status = "MASK" ∨ (p.eval ct).status = "REWRITE" then
          (if pyTruthy (p.eval ct).processed_prompt then (p.eval ct).processed_prompt.getD ct
           else ct)
         else ct)
        (if (p.eval ct).status = "MASK" ∨ (p.eval ct).status = "REWRITE" then (p.eval ct).status
         else fs) hfs'
      constructor
      · simpa using ih1
      · by_cases hrb : (processPromptAux rest text
            (if (p.eval ct).status = "MASK" ∨ (p.eval ct).status = "REWRITE" then
              (if pyTruthy (p.eval ct).processed_prompt then (p.eval ct).processed_prompt.getD ct
               else ct)
             else ct) []
            (if (p.eval ct).status = "MASK" ∨ (p.eval ct).status = "REWRITE" then (p.eval ct).status
             else fs)).status = "BLOCK"
        · simp only [hrb, if_true] at ih2 ⊢
          obtain ⟨iha, ihb⟩ := ih2
          rcases htail : (processPromptAux rest text
              (if (p.eval ct).status = "MASK" ∨ (p.eval ct).status = "REWRITE" then
                (if pyTruthy (p.eval ct).processed_prompt then (p.eval ct).processed_prompt.getD ct
                 else ct)
               else ct) []
              (if (p.eval ct).status = "MASK" ∨ (p.eval ct).status = "REWRITE" then (p.eval ct).status
               else fs)).audit_log with _ | ⟨x, xs⟩
          · rw [htail] at ihb
            simp at ihb
          · rw [htail] at iha ihb
            constructor
            · simp only [List.cons_append, List.nil_append, List.dropLast_cons₂, List.all_cons]
              simp [iha, hb]
            · simpa using ihb
        · simp only [hrb, if_false] at ih2 ⊢
          obtain ⟨ihl, iha⟩ := ih2
          refine ⟨by simp [ihl], ?_⟩
          simp [iha, hb]

/-- C3: the audit log contains exactly one entry per policy actually
evaluated, in chain order (the entry names are the names of an initial
segment of the chain); when the run blocked, the blocking entry is the last
one and no earlier entry is a BLOCK (so a first BLOCK at 1-indexed position
k yields an audit log of length k and no policy after k runs); when no
BLOCK occurred the log covers the whole chain. -/
theorem c3_audit_log_per_policy (chain : List Policy) (text : String) :
    ((process_prompt chain text).audit_log.map AuditEntry.policy =
        (chain.map Policy.name).take (process_prompt chain text).audit_log.length) ∧
    (if (process_prompt chain text).status = "BLOCK" then
        ((process_prompt chain text).audit_log.dropLast.all
            (fun e => !(e.status == "BLOCK"))) ∧
          ((process_prompt chain text).audit_log.getLast?.map
              AuditEntry.status = some "BLOCK")
      else
        ((process_prompt chain text).audit_log.length = chain.length ∧
          (process_prompt chain text).audit_log.all
            (fun e => !(e.status == "BLOCK")))) :=
  processPromptAux_audit_shape chain text text "PASS" (by decide)

/-- Prepending an audit entry to the log shifts the default of the
last-MASK-or-REWRITE observation, exactly as the gateway updates its
running `final_status`. -/
theorem finalFromAuditFrom_cons (fs : String) (e : AuditEntry) (l : List AuditEntry) :
    finalFromAuditFrom fs (e :: l) =
      finalFromAuditFrom (if e.status = "MASK" ∨ e.status = "REWRITE" then e.status else fs) l := by
  unfold finalFromAuditFrom
  rw [List.reverse_cons, List.find?_append]
  cases hfind : l.reverse.find? (fun x => x.status == "MASK" || x.status == "REWRITE") with
  | some x => simp [hfind]
  | none =>
    by_cases hp : e.status = "MASK" ∨ e.status = "REWRITE"
    · have hpb : (e.status == "MASK" || e.status == "REWRITE") = true := by
        rcases hp with h | h <;> simp [h]
      simp [hfind, List.find?, hpb, hp]
    · have hpb : (e.status == "MASK" || e.status == "REWRITE") = false := by
        rcases not_or.mp hp with ⟨h1, h2⟩
        simp [h1, h2]
      simp [hfind, List.find?, hpb, hp]

/-- Invariant behind C5: on a run that does not block, the reported status
is the status of the last MASK-or-REWRITE audit entry, defaulting to the
incoming `final_status`. -/
theorem processPromptAux_final_status (policies : List Policy)
    (text ct fs : String)
    (h : (processPromptAux policies text ct [] fs).status ≠ "BLOCK") :
    (processPromptAux policies text ct [] fs).status =
      finalFromAuditFrom fs (processPromptAux policies text ct [] fs).audit_log := by
  induction policies generalizing ct fs with
  | nil => simp [processPromptAux, finalFromAuditFrom]
  | cons p rest ih =>
    simp only [processPromptAux] at h ⊢
    by_cases hb : (p.eval ct).status = "BLOCK"
    · simp [hb] at h
    · simp only [hb, if_false] at h ⊢
      rw [processPromptAux_acc] at h ⊢
      simp only [List.nil_append] at h ⊢
      rw [List.singleton_append, finalFromAuditFrom_cons]
      exact ih _ _ h

/-- C5: for every chain and input text on which the gateway did not block,
the status of the GatewayResult equals the status of the last audit entry
whose status is MASK or REWRITE, or PASS if no such entry exists. -/
theorem c5_final_status_is_last_mask_rewrite (chain : List Policy) (text : String)
    (h : (process_prompt chain text).status ≠ "BLOCK") :
    (process_prompt chain text).status =
      finalFromAudit (process_prompt chain text).audit_log :=
  processPromptAux_final_status chain text text "PASS" h

/-- Witness for C5 at a concrete chain and input. -/
theorem c5_witness :
    (process_prompt [(Jailbreak_Detector.from_config {}).toPolicy] "hello").status ≠ "BLOCK" ∧
    (process_prompt [(Jailbreak_Detector.from_config {}).toPolicy] "hello").status =
      finalFromAudit
        (process_prompt [(Jailbreak_Detector.from_config {}).toPolicy] "hello").audit_log :=
  ⟨by decide, c5_final_status_is_last_mask_rewrite _ "hello" (by decide)⟩

/-- C1 counterexample: a PII scrubber configured with an empty mask token,
on the input "a@b.cc" (one email and nothing else), returns MASK with an
empty `processed_prompt`; the claim then demands that `final_status` stay
PASS, but the gateway reports MASK (and leaves the text unchanged), because
backend.py:95 assigns `final_status` outside the `if processed:` guard. -/
theorem c1_counterexample :
    piiEmptyMask.eval "a@b.cc" =
        { status := "MASK", details := "PII (email) masked.", processed_prompt := some "" } ∧
      (process_prompt [piiEmptyMask] "a@b.cc").status = "MASK" ∧
      (process_prompt [piiEmptyMask] "a@b.cc").processed_text = some "a@b.cc" := by
  refine ⟨by decide, by decide, by decide⟩

/-- C1 (amended): when a policy returns MASK or REWRITE, the gateway
advances `current_text` to the processed text only when that text is
non-empty, but it sets `final_status` to the returned status
unconditionally — also when `processed_prompt` is empty or missing (PASS
results still never touch `final_status`). -/
theorem c1_amended_mask_rewrite_step (p : Policy) (rest : List Policy)
    (text ct : String) (A : List AuditEntry) (fs : String)
    (h : (p.eval ct).status = "MASK" ∨ (p.eval ct).status = "REWRITE") :
    processPromptAux (p :: rest) text ct A fs =
      processPromptAux rest text
        (if pyTruthy (p.eval ct).processed_prompt then (p.eval ct).processed_prompt.getD ct
         else ct)
        (A ++ [{ policy := p.name, status := (p.eval ct).status, details := (p.eval ct).details }])
        ((p.eval ct).status) := by
  have hb : ¬ (p.eval ct).status = "BLOCK" := by
    rcases h with h | h <;> simp [h]
  simp only [processPromptAux]
  rw [if_neg hb, if_pos h, if_pos h]

/-- Witness for the amended C1 at the counterexample input: the status is
MASK with empty processed text, the text does not advance, and the final
status is set to MASK. -/
theorem c1_amended_witness :
    ((piiEmptyMask.eval "a@b.cc").status = "MASK" ∨
        (piiEmptyMask.eval "a@b.cc").status = "REWRITE") ∧
      processPromptAux [piiEmptyMask] "t" "a@b.cc" [] "PASS" =
        processPromptAux [] "t"
          (if pyTruthy (piiEmptyMask.eval "a@b.cc").processed_prompt then
            (piiEmptyMask.eval "a@b.cc").processed_prompt.getD "a@b.cc"
           else "a@b.cc")
          ([] ++ [{ policy := piiEmptyMask.name, status := (piiEmptyMask.eval "a@b.cc").status,
                    details := (piiEmptyMask.eval "a@b.cc").details }])
          ((piiEmptyMask.eval "a@b.cc").status) :=
  ⟨by decide,
   c1_amended_mask_rewrite_step piiEmptyMask [] "t" "a@b.cc" [] "PASS" (by decide)⟩

/-- C4 counterexample: the table `[("A", [])]` contains the name "A" with an
empty entry list; the claim demands EmptyChainError there, but the code
raises the "not found" error, because `if not config_list:` (backend.py:44)
is also true for a present-but-empty list. -/
theorem c4_counterexample :
    lookupTable [("A", [])] "A" = some [] ∧
      loadErrorKind (load_policies [("A", [])] "A") = some LoadError.configurationNotFound ∧
      loadErrorKind (load_policies [("A", [])] "A") ≠ some LoadError.emptyChain := by
  refine ⟨rfl, rfl, by decide⟩

/-- C4 (amended): both errors are raised at construction time, and they are
distinguished as follows — the "configuration not found" error is raised
exactly when the requested name is absent from the table or maps to an
empty entry list; the "empty chain / no valid policies" error is raised
exactly when the name maps to a non-empty list in which no entry resolves
to a known policy type. -/
theorem c4_amended_load_error_kinds
    (data : List (String × List ConfigItem)) (name : String) :
    ((load_policies data name = Except.error LoadError.configurationNotFound) ↔
      (lookupTable data name = none ∨ lookupTable data name = some [])) ∧
    ((load_policies data name = Except.error LoadError.emptyChain) ↔
      (∃ items, lookupTable data name = some items ∧ items.isEmpty = false ∧
        buildChain items = [])) := by
  unfold load_policies
  cases hl : lookupTable data name with
  | none => simp
  | some items =>
    cases items with
    | nil => simp [List.isEmpty]
    | cons it rest =>
      simp only [List.isEmpty_cons, if_false, Bool.false_eq_true]
      by_cases hbc : (buildChain (it :: rest)).isEmpty
      · have hbc' : buildChain (it :: rest) = [] := List.isEmpty_iff.mp hbc
        simp [hbc, hbc']
      · have hbc' : buildChain (it :: rest) ≠ [] := by
          intro hh
          exact hbc (by simp [hh])
        simp [hbc, hbc']

/-- The skip-and-keep loop of `_load_policies` computes exactly the
resolved entries, in configuration order. -/
theorem buildChain_eq_filterMap (items : List ConfigItem) :
    buildChain items = items.filterMap
      (fun item => (policyMapGet item.type).map (fun ctor => ctor item.config)) := by
  induction items with
  | nil => rfl
  | cons it rest ih =>
    cases h : policyMapGet it.type with
    | none => simp [buildChain, h, List.filterMap_cons, ih]
    | some ctor => simp [buildChain, h, List.filterMap_cons, ih]

/-- C8: an entry whose type tag does not resolve is skipped and is never
fatal as long as the named set is present and at least one entry resolves:
construction succeeds and the chain consists of exactly the resolved
policies in configuration order. -/
theorem c8_unknown_type_skipped (data : List (String × List ConfigItem))
    (name : String) (items : List ConfigItem)
    (h1 : lookupTable data name = some items)
    (h2 : buildChain items ≠ []) :
    load_policies data name = Except.ok (buildChain items) ∧
    buildChain items = items.filterMap
      (fun item => (policyMapGet item.type).map (fun ctor => ctor item.config)) := by
  refine ⟨?_, buildChain_eq_filterMap items⟩
  unfold load_policies
  rw [h1]
  have hne : items.isEmpty = false := by
    cases items with
    | nil => exact absurd rfl h2
    | cons a l => rfl
  have hbc : (buildChain items).isEmpty = false := by
    cases hx : buildChain items with
    | nil => exact absurd hx h2
    | cons a l => rfl
  simp [hne, hbc]

/-- Witness for C8: a set with one unknown tag and one PII scrubber builds
into the chain holding just the scrubber. -/
theorem c8_witness :
    lookupTable mixedTable "main" = some mixedItems ∧
      buildChain mixedItems ≠ [] ∧
      (load_policies mixedTable "main" = Except.ok (buildChain mixedItems) ∧
        buildChain mixedItems = mixedItems.filterMap
          (fun item => (policyMapGet item.type).map (fun ctor => ctor item.config))) :=
  ⟨rfl,
   by intro h; exact absurd (congrArg List.length h) (by decide),
   c8_unknown_type_skipped mixedTable "main" mixedItems rfl
     (by intro h; exact absurd (congrArg List.length h) (by decide))⟩

/-- C6: whenever the text contains the standalone word "bomb"
(case-insensitive) and, independently, a creation verb from
make/build/create/manufacture anywhere, the semantic-threat detector
returns BLOCK with the fixed bomb-making-intent reason — regardless of the
relative position of the two matches and taking precedence over both
pattern lists (the result never carries a pattern-derived detail). -/
theorem c6_compound_bomb_rule (s : Semantic_Threat_Detector) (text : String)
    (h1 : mSearch bombWord text = true) (h2 : mSearch creationVerb text = true) :
    s.evaluate_prompt text =
      { status := "BLOCK", details := "Dangerous bomb-making intent detected." } := by
  unfold Semantic_Threat_Detector.evaluate_prompt
  rw [h1, h2]
  rfl

/-- Witness for C6 at a text where the creation verb appears after the
standalone (upper-case) word "bomb". -/
theorem c6_witness :
    mSearch bombWord "the BOMB was what they manufacture" = true ∧
      mSearch creationVerb "the BOMB was what they manufacture" = true ∧
      Semantic_Threat_Detector.evaluate_prompt ⟨⟩ "the BOMB was what they manufacture" =
        { status := "BLOCK", details := "Dangerous bomb-making intent detected." } :=
  ⟨by decide, by decide,
   c6_compound_bomb_rule ⟨⟩ "the BOMB was what they manufacture" (by decide) (by decide)⟩

/-- C10: a keyword list whose entries are all empty or whitespace-only is
normalised to the empty list at construction, so the ad-hoc keyword
firewall passes any text through unchanged, with a single PASS audit
entry — an empty keyword can never cause a match-everything BLOCK. -/
theorem c10_blank_keywords_pass (text : String) (keywords : List String)
    (h : ∀ k ∈ keywords, pyStrip k = "") :
    process_text_custom text keywords =
      { status := "PASS", original_text := text, processed_text := some text,
        audit_log := [{ policy := "Keyword_Blocker", status := "PASS",
                        details := "No keyword match." }],
        final_reason := "No keyword match." } := by
  have hfilter : keywords.filter (fun x => !(pyStrip x == "")) = [] := by
    rw [List.filter_eq_nil_iff]
    intro a ha
    simp [h a ha]
  have hkb : Keyword_Blocker.from_keywords keywords = ⟨[]⟩ := by
    unfold Keyword_Blocker.from_keywords
    rw [hfilter]
    rfl
  unfold process_text_custom
  rw [hkb]
  rfl

/-- Witness for C10 at a concrete blank keyword list. -/
theorem c10_witness :
    (∀ k ∈ (["", "  ", "\t"] : List String), pyStrip k = "") ∧
      process_text_custom "hello world" ["", "  ", "\t"] =
        { status := "PASS", original_text := "hello world",
          processed_text := some "hello world",
          audit_log := [{ policy := "Keyword_Blocker", status := "PASS",
                          details := "No keyword match." }],
          final_reason := "No keyword match." } :=
  ⟨by decide, c10_blank_keywords_pass "hello world" ["", "  ", "\t"] (by decide)⟩

/-- The PII scrubber only reports MASK or PASS. -/
theorem pii_status_ok (p : PII_Scrubber) (t : String) :
    (p.evaluate_prompt t).status ∈ okStatuses := by
  unfold PII_Scrubber.evaluate_prompt
  dsimp only
  by_cases h : emailSub p.mask_token t ≠ t
  · rw [if_pos h]
    show ("MASK" : String) ∈ okStatuses
    decide
  · rw [if_neg h]
    show ("PASS" : String) ∈ okStatuses
    decide

/-- The jailbreak detector only reports BLOCK or PASS. -/
theorem jailbreak_status_ok (p : Jailbreak_Detector) (t : String) :
    (p.evaluate_prompt t).status ∈ okStatuses := by
  unfold Jailbreak_Detector.evaluate_prompt
  dsimp only
  cases hfind : p.keywords.find? (fun kw => containsSub kw.toList (strLower t).toList) with
  | some kw =>
    show ("BLOCK" : String) ∈ okStatuses
    decide
  | none =>
    show ("PASS" : String) ∈ okStatuses
    decide

/-- The semantic-threat detector only reports BLOCK, REWRITE or PASS. -/
theorem semantic_status_ok (s : Semantic_Threat_Detector) (t : String) :
    (s.evaluate_prompt t).status ∈ okStatuses := by
  unfold Semantic_Threat_Detector.evaluate_prompt
  split
  · show ("BLOCK" : String) ∈ okStatuses
    decide
  · split
    · show ("BLOCK" : String) ∈ okStatuses
      decide
    · split
      · show ("REWRITE" : String) ∈ okStatuses
        decide
      · show ("PASS" : String) ∈ okStatuses
        decide

/-- The output sanitizer only reports MASK or PASS. -/
theorem sanitizer_status_ok (p : Output_Sanitizer) (t : String) :
    (p.evaluate_prompt t).status ∈ okStatuses := by
  unfold Output_Sanitizer.evaluate_prompt
  dsimp only
  split
  · show ("MASK" : String) ∈ okStatuses
    decide
  · show ("PASS" : String) ∈ okStatuses
    decide

/-- Any constructor the registry can return builds a policy whose
evaluation always reports one of the four statuses. -/
theorem policyMapGet_status_ok (t : Option String) (ctor : PolicyConfig → Policy)
    (h : policyMapGet t = some ctor) (cfg : PolicyConfig) (text : String) :
    ((ctor cfg).eval text).status ∈ okStatuses := by
  cases t with
  | none => simp [policyMapGet] at h
  | some s =>
    simp only [policyMapGet] at h
    cases hf : POLICY_MAP.find? (fun kv => kv.fst == s) with
    | none => rw [hf] at h; cases h
    | some kv =>
      rw [hf] at h
      injection h with h'
      have hmem := List.mem_of_find?_eq_some hf
      subst h'
      simp only [POLICY_MAP, List.mem_cons, List.not_mem_nil, or_false] at hmem
      rcases hmem with h4 | h4 | h4 | h4 <;> subst h4
      · exact pii_status_ok (PII_Scrubber.from_config cfg) text
      · exact jailbreak_status_ok (Jailbreak_Detector.from_config cfg) text
      · exact semantic_status_ok (Semantic_Threat_Detector.from_config cfg) text
      · exact sanitizer_status_ok (Output_Sanitizer.from_config cfg) text

/-- Every policy a chain build produces reports only the four statuses. -/
theorem buildChain_status_ok (items : List ConfigItem) :
    ∀ p ∈ buildChain items, ∀ t, (p.eval t).status ∈ okStatuses := by
  induction items with
  | nil => simp [buildChain]
  | cons it rest ih =>
    intro p hp t
    rw [buildChain] at hp
    cases h : policyMapGet it.type with
    | none =>
      rw [h] at hp
      exact ih p hp t
    | some ctor =>
      rw [h] at hp
      rcases List.mem_cons.mp hp with rfl | hp'
      · exact policyMapGet_status_ok it.type ctor h it.config t
      · exact ih p hp' t

/-- Invariant behind C7: when every policy of the chain reports one of the
four statuses, so do the gateway result and every audit entry. -/
theorem processPromptAux_status_all_ok : ∀ (policies : List Policy) (text ct fs : String),
    (∀ p ∈ policies, ∀ t, (p.eval t).status ∈ okStatuses) → fs ∈ okStatuses →
    (processPromptAux policies text ct [] fs).status ∈ okStatuses ∧
      ∀ e ∈ (processPromptAux policies text ct [] fs).audit_log, e.status ∈ okStatuses := by
  intro policies
  induction policies with
  | nil =>
    intro text ct fs _hall hfs
    refine ⟨by simpa [processPromptAux] using hfs, by simp [processPromptAux]⟩
  | cons p rest ih =>
    intro text ct fs hall hfs
    have hp : ∀ t, ((p.eval t)).status ∈ okStatuses := fun t => hall p (by simp) t
    have hrest : ∀ q ∈ rest, ∀ t, (q.eval t).status ∈ okStatuses :=
      fun q hq t => hall q (by simp [hq]) t
    simp only [processPromptAux]
    by_cases hb : (p.eval ct).status = "BLOCK"
    · refine ⟨by simp [hb]; decide, ?_⟩
      rw [if_pos hb]
      intro e he
      simp only [List.nil_append, List.mem_singleton] at he
      subst he
      exact hp ct
    · rw [if_neg hb]
      rw [processPromptAux_acc]
      have hfs' : (if (p.eval ct).status = "MASK" ∨ (p.eval ct).status = "REWRITE" then
          (p.eval ct).status else fs) ∈ okStatuses := by
        split
        · exact hp ct
        · exact hfs
      obtain ⟨h1, h2⟩ := ih text
        (if (p.eval ct).status = "MASK" ∨ (p.eval ct).status = "REWRITE" then
          (if pyTruthy (p.eval ct).processed_prompt then (p.eval ct).processed_prompt.getD ct
           else ct)
         else ct)
        (if (p.eval ct).status = "MASK" ∨ (p.eval ct).status = "REWRITE" then (p.eval ct).status
         else fs) hrest hfs'
      refine ⟨h1, ?_⟩
      intro e he
      simp only [List.nil_append, List.cons_append, List.mem_cons] at he
      rcases he with rfl | he'
      · exact hp ct
      · exact h2 e (by simpa using he')

/-- Status discipline of the embedding: every chain the model builds
reports one of the four statuses — for the whole result and for every
audit entry, on every text. This speaks about the embedding, which covers
the literal-replacement configurations (see `emailSub`); the program
itself escapes it on the non-literal mask tokens exhibited for C7. -/
theorem loaded_chain_status_wf (data : List (String × List ConfigItem)) (name : String)
    (chain : List Policy) (h : load_policies data name = Except.ok chain) (text : String) :
    (process_prompt chain text).status ∈ okStatuses ∧
      (∀ e ∈ (process_prompt chain text).audit_log, e.status ∈ okStatuses) ∧
      (∀ p ∈ chain, (p.eval "").status ∈ okStatuses) := by
  have hchain : ∀ p ∈ chain, ∀ t, (p.eval t).status ∈ okStatuses := by
    unfold load_policies at h
    cases hl : lookupTable data name with
    | none =>
      rw [hl] at h
      dsimp only at h
      cases h
    | some items =>
      rw [hl] at h
      dsimp only at h
      by_cases he : items.isEmpty
      · rw [if_pos he] at h; cases h
      · rw [if_neg he] at h
        by_cases hbc : (buildChain items).isEmpty
        · rw [if_pos hbc] at h; cases h
        · rw [if_neg hbc] at h
          injection h with h'
          subst h'
          exact buildChain_status_ok items
  obtain ⟨h1, h2⟩ := processPromptAux_status_all_ok chain text text "PASS" hchain (by decide)
  exact ⟨h1, h2, fun p hp => hchain p hp ""⟩

/-- Instantiation of the status discipline at a concretely loaded chain. -/
theorem loaded_chain_status_wf_example :
    (process_prompt (buildChain jbItems) "").status ∈ okStatuses ∧
      (∀ e ∈ (process_prompt (buildChain jbItems) "").audit_log, e.status ∈ okStatuses) ∧
      (∀ p ∈ buildChain jbItems, (p.eval "").status ∈ okStatuses) :=
  loaded_chain_status_wf jbTable "main" (buildChain jbItems) rfl ""

/-- C7 (code bug): evaluation is not total in the program. The
configuration of `crashTable` — a PII scrubber whose `mask_token` is the
two characters backslash-one — passes `_load_policies` (backend.py:42-64
performs no validation of the token), yet every call of its
`evaluate_prompt` raises `re.error` inside `email_regex.sub`
(policies.py:57): the replacement contains a backslash, so CPython
compiles it as a template before any matching — on empty input too — and
a reference to group 1 is invalid against the group-free email pattern.
The claim states the intended contract (the spec files invalid per-entry
configuration under construction-time errors and demands that evaluation
never raise); the code violates it. The theorem pins the three facts:
construction succeeds on this configuration and hands the token through
unchanged, the token is not a literal replacement, and the template does
not parse. -/
theorem c7_mask_token_crash_at_evaluation :
    load_policies crashTable "main" =
        Except.ok [(PII_Scrubber.from_config { mask_token := some "\\1" }).toPolicy] ∧
      (PII_Scrubber.from_config { mask_token := some "\\1" }).mask_token = "\\1" ∧
      replIsLiteral "\\1" = false ∧
      replTemplateValid0 "\\1".toList = false :=
  ⟨rfl, rfl, by decide, by decide⟩

/-- A greedy class run never exceeds the text. -/
theorem runLen_le (p : Char → Bool) (l : List Char) : runLen p l ≤ l.length := by
  induction l with
  | nil => simp [runLen]
  | cons c tl ih =>
    by_cases hc : p c <;> simp [runLen, hc] <;> omega

/-- How a greedy class run crosses a concatenation. -/
theorem runLen_append (p : Char → Bool) (xs ys : List Char) :
    runLen p (xs ++ ys) =
      if runLen p xs = xs.length then xs.length + runLen p ys else runLen p xs := by
  induction xs with
  | nil => simp [runLen]
  | cons c tl ih =>
    by_cases hc : p c
    · by_cases hfull : runLen p tl = tl.length
      · simp [runLen, hc, ih, hfull]
        omega
      · have h1 : ¬(runLen p tl + 1 = tl.length + 1) := by omega
        simp [runLen, hc, ih, hfull, h1]
    · have h0 : ¬((0 : Nat) = tl.length + 1) := by omega
      simp [runLen, hc, h0]

/-- The character right after a greedy run fails the class. -/
theorem runLen_stop (p : Char → Bool) (l : List Char) (c : Char)
    (h : l[runLen p l]? = some c) : p c = false := by
  induction l with
  | nil => simp at h
  | cons c0 tl ih =>
    by_cases hc : p c0
    · rw [show runLen p (c0 :: tl) = runLen p tl + 1 from by simp [runLen, hc]] at h
      exact ih (by simpa using h)
    · rw [show runLen p (c0 :: tl) = 0 from by simp [runLen, hc]] at h
      simp at h
      rw [← h]
      simpa using hc

/-- A run over characters that all satisfy the class is the whole list. -/
theorem runLen_of_all (p : Char → Bool) (xs : List Char)
    (h : ∀ c ∈ xs, p c = true) : runLen p xs = xs.length := by
  induction xs with
  | nil => simp [runLen]
  | cons c tl ih =>
    have hc : p c := h c (by simp)
    simp [runLen, hc, ih (fun d hd => h d (by simp [hd]))]

/-- A successful email match consumes at least one character of a
non-empty text. -/
theorem matchEmail_pos (l : List Char) (n : Nat) (h : matchEmail l = some n) :
    1 ≤ n ∧ 1 ≤ l.length := by
  unfold matchEmail at h
  dsimp only at h
  by_cases ha : runLen localChar l = 0
  · rw [if_pos ha] at h; cases h
  · rw [if_neg ha] at h
    have hlen : 1 ≤ l.length := by
      rcases l with _ | ⟨c, tl⟩
      · simp [runLen] at ha
      · simp
    refine ⟨?_, hlen⟩
    cases hd : l.drop (runLen localChar l) with
    | nil => rw [hd] at h; cases h
    | cons c rest =>
      rw [hd] at h
      dsimp only at h
      by_cases hc : c = '@'
      · rw [if_pos hc] at h
        cases hf : findDot rest (runLen domainChar rest) with
        | none => rw [hf] at h; cases h
        | some j =>
          rw [hf] at h
          injection h with h'
          omega
      · rw [if_neg hc] at h; cases h

/-- The empty text admits no email match. -/
theorem matchEmail_nil : matchEmail [] = none := rfl

/-- A text starting with a character outside the local-part class admits no
email match at its front. -/
theorem matchEmail_cons_not_local (c : Char) (tl : List Char)
    (h : localChar c = false) : matchEmail (c :: tl) = none := by
  unfold matchEmail
  dsimp only
  rw [if_pos (by simp [runLen, h])]

/-- Any all-local prefix closed by `]` insulates what follows: no email
match can start at its front, whatever comes after. -/
theorem matchEmail_insulate (xs ys : List Char)
    (h : ∀ c ∈ xs, localChar c = true) :
    matchEmail (xs ++ ']' :: ys) = none := by
  have hrb : runLen localChar (']' :: ys) = 0 := by
    simp [runLen, show localChar ']' = false from by decide]
  have hrun : runLen localChar (xs ++ ']' :: ys) = xs.length := by
    rw [runLen_append, if_pos (runLen_of_all localChar xs h), hrb]
    omega
  unfold matchEmail
  dsimp only
  by_cases h0 : xs.length = 0
  · rw [hrun, if_pos h0]
  · rw [hrun, if_neg h0]
    rw [show (xs ++ ']' :: ys).drop xs.length = ']' :: ys from List.drop_left xs _]
    dsimp only
    rw [if_neg (show ¬((']' : Char) = '@') from by decide)]

/-- The class-membership test behind `isAlphaAt`. -/
theorem isAlphaAt_true_iff (l : List Char) (k : Nat) :
    isAlphaAt l k = true ↔ ∃ ch, l[k]? = some ch ∧ ch.isAlpha = true := by
  unfold isAlphaAt
  cases l[k]? <;> simp

/-- Letters belong to the domain class. -/
theorem alpha_domainChar (c : Char) (h : c.isAlpha = true) : domainChar c = true := by
  simp [domainChar, h]

/-- Key stability fact behind the idempotence of the email substitution: if
no email match starts at the front of `p ++ q`, then none starts at the
front of `p ++ '[' :: r` either, whatever `r` is. The mask token starts
with `[`, which is in neither character class, so splicing it (with
arbitrary continuation) after the unchanged prefix `p` can only truncate
the runs the matcher sees, never complete a match that `p ++ q` lacked. -/
theorem matchEmail_none_append_bracket (p q r : List Char)
    (hq : matchEmail (p ++ q) = none) :
    matchEmail (p ++ '[' :: r) = none := by
  have hlb : runLen localChar ('[' :: r) = 0 := by
    simp [runLen, show localChar '[' = false from by decide]
  by_cases hfull : runLen localChar p = p.length
  · have ha1 : runLen localChar (p ++ '[' :: r) = p.length := by
      rw [runLen_append, if_pos hfull, hlb]
      omega
    by_cases hp0 : p.length = 0
    · unfold matchEmail
      dsimp only
      rw [ha1, if_pos hp0]
    · unfold matchEmail
      dsimp only
      rw [ha1, if_neg hp0]
      rw [show (p ++ '[' :: r).drop p.length = '[' :: r from List.drop_left p _]
      dsimp only
      rw [if_neg (show ¬(('[' : Char) = '@') from by decide)]
  · have hle := runLen_le localChar p
    have halt : runLen localChar p < p.length := lt_of_le_of_ne hle hfull
    have ha1 : runLen localChar (p ++ '[' :: r) = runLen localChar p := by
      rw [runLen_append, if_neg hfull]
    have haq : runLen localChar (p ++ q) = runLen localChar p := by
      rw [runLen_append, if_neg hfull]
    by_cases ha0 : runLen localChar p = 0
    · unfold matchEmail
      dsimp only
      rw [ha1, if_pos ha0]
    · have hsplit1 : (p ++ '[' :: r).drop (runLen localChar p) =
          p.drop (runLen localChar p) ++ '[' :: r :=
        List.drop_append_of_le_length (le_of_lt halt)
    
      have hsplitq : (p ++ q).drop (runLen localChar p) =
          p.drop (runLen localChar p) ++ q :=
        List.drop_append_of_le_length (le_of_lt halt)
      have hcons : p.drop (runLen localChar p) =
          p.get ⟨runLen localChar p, halt⟩ :: p.drop (runLen localChar p + 1) :=
        List.drop_eq_getElem_cons halt
      by_cases hc : p.get ⟨runLen localChar p, halt⟩ = '@'
      · -- the delicate case: the `@` and the domain prefix are shared
        have hdb : runLen domainChar ('[' :: r) = 0 := by
          simp [runLen, show domainChar '[' = false from by decide]
        have hd1le : runLen domainChar (p.drop (runLen localChar p + 1) ++ '[' :: r) ≤
            (p.drop (runLen localChar p + 1)).length := by
          rw [runLen_append]
          split
          · rw [hdb]
            omega
          · exact runLen_le _ _
        have hd1dq : runLen domainChar (p.drop (runLen localChar p + 1) ++ '[' :: r) ≤
            runLen domainChar (p.drop (runLen localChar p + 1) ++ q) := by
          rw [runLen_append, runLen_append]
          split
          · rw [hdb]
            omega
          · exact le_refl _
        cases hf1 : findDot (p.drop (runLen localChar p + 1) ++ '[' :: r)
            (runLen domainChar (p.drop (runLen localChar p + 1) ++ '[' :: r)) with
        | none =>
          unfold matchEmail
          dsimp only
          rw [ha1, if_neg ha0, hsplit1, hcons]
          dsimp only [List.cons_append]
          rw [if_pos hc, hf1]
        | some j =>
          exfalso
          have hpred := List.find?_some hf1
          have hjmem := List.mem_of_find?_eq_some hf1
          rw [List.mem_reverse, List.mem_range] at hjmem
          simp only [Bool.and_eq_true, decide_eq_true_eq] at hpred
          obtain ⟨hj1, hdot⟩ := hpred
          simp only [dotOk, Bool.and_eq_true, beq_iff_eq] at hdot
          obtain ⟨⟨hdotc, ha1t⟩, ha2t⟩ := hdot
          obtain ⟨c1, hc1, hc1a⟩ := (isAlphaAt_true_iff _ _).mp ha1t
          obtain ⟨c2, hc2, hc2a⟩ := (isAlphaAt_true_iff _ _).mp ha2t
          -- the alpha witnesses sit strictly inside the domain run
          have hj1lt : j + 1 < runLen domainChar (p.drop (runLen localChar p + 1) ++ '[' :: r) := by
            rcases Nat.lt_or_ge (j+1)
                (runLen domainChar (p.drop (runLen localChar p + 1) ++ '[' :: r)) with h | h
            · exact h
            · exfalso
              have : j + 1 = runLen domainChar (p.drop (runLen localChar p + 1) ++ '[' :: r) := by
                omega
              rw [this] at hc1
              have := runLen_stop domainChar _ _ hc1
              rw [alpha_domainChar c1 hc1a] at this
              cases this
          have hj2lt : j + 2 < runLen domainChar (p.drop (runLen localChar p + 1) ++ '[' :: r) := by
            rcases Nat.lt_or_ge (j+2)
                (runLen domainChar (p.drop (runLen localChar p + 1) ++ '[' :: r)) with h | h
            · exact h
            · exfalso
              have : j + 2 = runLen domainChar (p.drop (runLen localChar p + 1) ++ '[' :: r) := by
                omega
              rw [this] at hc2
              have := runLen_stop domainChar _ _ hc2
              rw [alpha_domainChar c2 hc2a] at this
              cases this
          -- transfer the three positions to the `q` side
          have hjp : j < (p.drop (runLen localChar p + 1)).length := by omega
          have hj1p : j + 1 < (p.drop (runLen localChar p + 1)).length := by omega
          have hj2p : j + 2 < (p.drop (runLen localChar p + 1)).length := by omega
          have hdotq : (p.drop (runLen localChar p + 1) ++ q)[j]? = some '.' := by
            rw [List.getElem?_append_left hjp]
            rw [List.getElem?_append_left hjp] at hdotc
            exact hdotc
          have hc1q : (p.drop (runLen localChar p + 1) ++ q)[j+1]? = some c1 := by
            rw [List.getElem?_append_left hj1p]
            rw [List.getElem?_append_left hj1p] at hc1
            exact hc1
          have hc2q : (p.drop (runLen localChar p + 1) ++ q)[j+2]? = some c2 := by
            rw [List.getElem?_append_left hj2p]
            rw [List.getElem?_append_left hj2p] at hc2
            exact hc2
          have hdotq' : dotOk (p.drop (runLen localChar p + 1) ++ q) j = true := by
            simp [dotOk, isAlphaAt_true_iff, hdotq, hc1q, hc2q, hc1a, hc2a, isAlphaAt]
          have hfq : (findDot (p.drop (runLen localChar p + 1) ++ q)
              (runLen domainChar (p.drop (runLen localChar p + 1) ++ q))).isSome := by
            rw [findDot, List.find?_isSome]
            refine ⟨j, ?_, ?_⟩
            · rw [List.mem_reverse, List.mem_range]
              omega
            · simp [hj1, hdotq']
          obtain ⟨j', hj'⟩ := Option.isSome_iff_exists.mp hfq
          have : matchEmail (p ++ q) ≠ none := by
            unfold matchEmail
            dsimp only
            rw [haq, if_neg ha0, hsplitq, hcons]
            dsimp only [List.cons_append]
            rw [if_pos hc, hj']
            simp
          exact this hq
      · unfold matchEmail
        dsimp only
        rw [ha1, if_neg ha0, hsplit1, hcons]
        dsimp only [List.cons_append]
        rw [if_neg hc]

/-- The substitution leaves the empty text empty at any fuel. -/
theorem subScanFuel_nil (tok : List Char) : ∀ f, subScanFuel tok f [] = []
  | 0 => rfl
  | _ + 1 => rfl

/-- The result of the fuelled scan does not depend on the fuel, as long as
there is at least one unit per character. -/
theorem subScanFuel_congr (tok : List Char) :
    ∀ f1 f2 l, l.length ≤ f1 → l.length ≤ f2 →
      subScanFuel tok f1 l = subScanFuel tok f2 l := by
  intro f1
  induction f1 with
  | zero =>
    intro f2 l h1 _h2
    have : l = [] := List.length_eq_zero.mp (Nat.le_zero.mp h1)
    subst this
    rw [subScanFuel_nil, subScanFuel_nil]
  | succ f ih =>
    intro f2 l h1 h2
    cases l with
    | nil => rw [subScanFuel_nil, subScanFuel_nil]
    | cons c tl =>
      cases f2 with
      | zero => simp at h2
      | succ f2' =>
        show subScanFuel tok (f + 1) (c :: tl) = subScanFuel tok (f2' + 1) (c :: tl)
        simp only [List.length_cons] at h1 h2
        unfold subScanFuel
        cases hm : matchEmail (c :: tl) with
        | some n =>
          obtain ⟨hn1, _⟩ := matchEmail_pos _ _ hm
          have hd : ((c :: tl).drop n).length ≤ f := by
            simp only [List.length_drop, List.length_cons]
            omega
          have hd2 : ((c :: tl).drop n).length ≤ f2' := by
            simp only [List.length_drop, List.length_cons]
            omega
          dsimp only
          rw [ih f2' ((c :: tl).drop n) hd hd2]
        | none =>
          have ht1 : tl.length ≤ f := by omega
          have ht2 : tl.length ≤ f2' := by omega
          dsimp only
          rw [ih f2' tl ht1 ht2]

/-- Unfolding `subScan` at a match. -/
theorem subScan_match (tok l : List Char) (n : Nat) (hm : matchEmail l = some n) :
    subScan tok l = tok ++ subScan tok (l.drop n) := by
  obtain ⟨hn1, hl1⟩ := matchEmail_pos _ _ hm
  obtain ⟨m, hmlen⟩ : ∃ m, l.length = m + 1 := ⟨l.length - 1, by omega⟩
  have h1 : subScan tok l = subScanFuel tok l.length l := rfl
  rw [h1, hmlen]
  unfold subScanFuel
  rw [hm]
  dsimp only
  congr 1
  exact subScanFuel_congr tok m (l.drop n).length _
    (by simp only [List.length_drop]; omega) (le_refl _)

/-- Unfolding `subScan` at a non-match. -/
theorem subScan_nomatch (tok : List Char) (c : Char) (tl : List Char)
    (hm : matchEmail (c :: tl) = none) :
    subScan tok (c :: tl) = c :: subScan tok tl := by
  have h1 : subScan tok (c :: tl) = subScanFuel tok (tl.length + 1) (c :: tl) := rfl
  rw [h1]
  unfold subScanFuel
  rw [hm]
  rfl

/-- Shape of any substitution output: either the text is unchanged or the
output is an unchanged prefix followed by `[` (the mask token head). -/
theorem subScan_shape : ∀ (fuel : Nat) (l : List Char), l.length ≤ fuel →
    subScan maskChars l = l ∨
      ∃ m r', subScan maskChars l = l.take m ++ '[' :: r' := by
  intro fuel
  induction fuel with
  | zero =>
    intro l hl
    have : l = [] := List.length_eq_zero.mp (Nat.le_zero.mp hl)
    subst this
    left
    rfl
  | succ f ih =>
    intro l hl
    cases hm : matchEmail l with
    | some n =>
      right
      refine ⟨0, (maskChars.drop 1) ++ subScan maskChars (l.drop n), ?_⟩
      rw [subScan_match maskChars l n hm]
      rfl
    | none =>
      cases l with
      | nil => left; rfl
      | cons c tl =>
        rw [subScan_nomatch maskChars c tl hm]
        rcases ih tl (by simp at hl; omega) with h | ⟨m, r', h⟩
        · left
          rw [h]
        · right
          exact ⟨m + 1, r', by rw [h]; rfl⟩

/-- No email match can start inside the mask token: a proper suffix of the
token followed by anything admits no match at its front. -/
theorem matchEmail_maskChars_drop (k : Nat) (hk : k < 14) (ys : List Char) :
    matchEmail (maskChars.drop k ++ ys) = none := by
  interval_cases k
  · exact matchEmail_cons_not_local '[' _ (by decide)
  · exact matchEmail_insulate ['E', 'M', 'A', 'I', 'L', '_', 'M', 'A', 'S', 'K', 'E', 'D'] ys (by decide)
  · exact matchEmail_insulate ['M', 'A', 'I', 'L', '_', 'M', 'A', 'S', 'K', 'E', 'D'] ys (by decide)
  · exact matchEmail_insulate ['A', 'I', 'L', '_', 'M', 'A', 'S', 'K', 'E', 'D'] ys (by decide)
  · exact matchEmail_insulate ['I', 'L', '_', 'M', 'A', 'S', 'K', 'E', 'D'] ys (by decide)
  · exact matchEmail_insulate ['L', '_', 'M', 'A', 'S', 'K', 'E', 'D'] ys (by decide)
  · exact matchEmail_insulate ['_', 'M', 'A', 'S', 'K', 'E', 'D'] ys (by decide)
  · exact matchEmail_insulate ['M', 'A', 'S', 'K', 'E', 'D'] ys (by decide)
  · exact matchEmail_insulate ['A', 'S', 'K', 'E', 'D'] ys (by decide)
  · exact matchEmail_insulate ['S', 'K', 'E', 'D'] ys (by decide)
  · exact matchEmail_insulate ['K', 'E', 'D'] ys (by decide)
  · exact matchEmail_insulate ['E', 'D'] ys (by decide)
  · exact matchEmail_insulate ['D'] ys (by decide)
  · exact matchEmail_insulate [] ys (by decide)

/-- Core invariant behind idempotence: the output of the email substitution
with the default mask token admits no email match at any position. A match
cannot start inside a spliced mask token (`matchEmail_maskChars_drop`), and
a position in front of untouched input characters that failed to match
before the substitution still fails afterwards, because the first changed
character the matcher can reach is the `[` opening the next mask token
(`matchEmail_none_append_bracket`). -/
theorem subScan_noMatch : ∀ (fuel : Nat) (l : List Char), l.length ≤ fuel →
    NoMatch (subScan maskChars l) := by
  intro fuel
  induction fuel with
  | zero =>
    intro l hl
    have : l = [] := List.length_eq_zero.mp (Nat.le_zero.mp hl)
    subst this
    intro i
    show matchEmail (List.drop i []) = none
    rw [List.drop_nil]
    exact matchEmail_nil
  | succ f ih =>
    intro l hl
    cases hm : matchEmail l with
    | some n =>
      rw [subScan_match maskChars l n hm]
      intro i
      obtain ⟨hn1, hl1⟩ := matchEmail_pos _ _ hm
      have hrec : NoMatch (subScan maskChars (l.drop n)) := by
        apply ih
        simp only [List.length_drop]
        omega
      have h14 : maskChars.length = 14 := rfl
      by_cases hi : i < 14
      · have hsplit : (maskChars ++ subScan maskChars (l.drop n)).drop i =
            maskChars.drop i ++ subScan maskChars (l.drop n) :=
          List.drop_append_of_le_length (by omega)
        rw [hsplit]
        exact matchEmail_maskChars_drop i hi _
      · have hsplit : (maskChars ++ subScan maskChars (l.drop n)).drop i =
            (subScan maskChars (l.drop n)).drop (i - 14) := by
          rw [show i = maskChars.length + (i - 14) from by rw [h14]; omega]
          rw [List.drop_append]
          congr 1
          omega
        rw [hsplit]
        exact hrec (i - 14)
    | none =>
      cases l with
      | nil =>
        intro i
        show matchEmail ((subScan maskChars []).drop i) = none
        rw [show subScan maskChars [] = [] from rfl, List.drop_nil]
        exact matchEmail_nil
      | cons c tl =>
        rw [subScan_nomatch maskChars c tl hm]
        intro i
        cases i with
        | zero =>
          show matchEmail (c :: subScan maskChars tl) = none
          rcases subScan_shape tl.length tl (le_refl _) with hsh | ⟨m, r', hsh⟩
          · rw [hsh]
            exact hm
          · rw [hsh]
            have hpre : matchEmail ((c :: tl.take m) ++ tl.drop m) = none := by
              rw [List.cons_append, List.take_append_drop]
              exact hm
            have hres := matchEmail_none_append_bracket (c :: tl.take m) (tl.drop m) r' hpre
            rw [List.cons_append] at hres
            exact hres
        | succ i' =>
          show matchEmail ((subScan maskChars tl).drop i') = none
          exact ih tl (by simp only [List.length_cons] at hl; omega) i'

/-- A text without matches passes through the substitution unchanged. -/
theorem subScan_id (tok : List Char) : ∀ (fuel : Nat) (l : List Char), l.length ≤ fuel →
    NoMatch l → subScan tok l = l := by
  intro fuel
  induction fuel with
  | zero =>
    intro l hl _
    have : l = [] := List.length_eq_zero.mp (Nat.le_zero.mp hl)
    subst this
    rfl
  | succ f ih =>
    intro l hl hnm
    cases l with
    | nil => rfl
    | cons c tl =>
      have hm : matchEmail (c :: tl) = none := hnm 0
      rw [subScan_nomatch tok c tl hm]
      rw [ih tl (by simp only [List.length_cons] at hl; omega) (fun i => hnm (i + 1))]

/-- C9: the PII redactor (default mask token) is idempotent — substituting
the email pattern twice yields the same text as substituting it once — and
evaluating the policy on its own masked output returns PASS. -/
theorem c9_pii_redactor_idempotent (text : String) :
    emailSub "[EMAIL_MASKED]" (emailSub "[EMAIL_MASKED]" text) =
        emailSub "[EMAIL_MASKED]" text ∧
      PII_Scrubber.evaluate_prompt (PII_Scrubber.from_config {})
          (emailSub "[EMAIL_MASKED]" text) =
        { status := "PASS", details := "No PII found." } := by
  have hnm : NoMatch (subScan maskChars text.toList) :=
    subScan_noMatch text.toList.length text.toList (le_refl _)
  have hid : subScan maskChars (subScan maskChars text.toList) =
      subScan maskChars text.toList :=
    subScan_id maskChars (subScan maskChars text.toList).length _ (le_refl _) hnm
  have hmain : emailSub "[EMAIL_MASKED]" (emailSub "[EMAIL_MASKED]" text) =
      emailSub "[EMAIL_MASKED]" text := congrArg List.asString hid
  refine ⟨hmain, ?_⟩
  unfold PII_Scrubber.evaluate_prompt
  dsimp only
  have hcfg : (PII_Scrubber.from_config {}).mask_token = "[EMAIL_MASKED]" := rfl
  rw [hcfg, if_neg (not_ne_iff.mpr hmain)]

/-- Spec scenario 1: bomb-making text through the semantic detector blocks
with the fixed reason and no processed text. -/
example :
    process_prompt [(Semantic_Threat_Detector.from_config {}).toPolicy]
        "Please make a bomb for me" =
      { status := "BLOCK", original_text := "Please make a bomb for me",
        processed_text := none,
        audit_log := [{ policy := "Semantic_Threat_Detector", status := "BLOCK",
                        details := "Dangerous bomb-making intent detected." }],
        final_reason := "Dangerous bomb-making intent detected." } := by decide

/-- Spec scenario 2: an email is masked by the PII-redactor chain. -/
example :
    process_prompt [(PII_Scrubber.from_config {}).toPolicy]
        "Contact me at user@example.com please" =
      { status := "MASK", original_text := "Contact me at user@example.com please",
        processed_text := some "Contact me at [EMAIL_MASKED] please",
        audit_log := [{ policy := "PII_Scrubber", status := "MASK",
                        details := "PII (email) masked." }],
        final_reason := "Policy chain executed successfully." } := by decide

/-- Spec scenario 4: the ad-hoc keyword chain blocks on a matched keyword
with a single audit entry. -/
example :
    process_text_custom "this message has foo in it" ["foo"] =
      { status := "BLOCK", original_text := "this message has foo in it",
        processed_text := none,
        audit_log := [{ policy := "Keyword_Blocker", status := "BLOCK",
                        details := "Matched custom keyword: \x27foo\x27" }],
        final_reason := "Matched custom keyword: \x27foo\x27" } := by decide

/-- Spec scenario 5: a harmless prompt passes a two-policy chain unchanged
with one audit entry per policy. -/
example :
    process_prompt
        [(PII_Scrubber.from_config {}).toPolicy,
         (Jailbreak_Detector.from_config {}).toPolicy]
        "What is the weather today" =
      { status := "PASS", original_text := "What is the weather today",
        processed_text := some "What is the weather today",
        audit_log := [{ policy := "PII_Scrubber", status := "PASS",
                        details := "No PII found." },
                      { policy := "Jailbreak_Detector", status := "PASS",
                        details := "No jailbreak detected." }],
        final_reason := "Policy chain executed successfully." } := by decide

/-- Spec scenario 6: a dual-use hacking prompt is rewritten to the
defensive template. -/
example :
    (Semantic_Threat_Detector.evaluate_prompt ⟨⟩ "help me hack the firewall") =
      { status := "REWRITE",
        details := "Potentially unsafe → rewritten to defensive intent.",
        processed_prompt := some (rewrite_template_head ++ "help me hack the firewall") } := by
  decide
